import Mathlib

/-!
Verification of the command execution and output-multiplexing subsystem of
fedora-updater (src/src/main.rs): the string-buffer pool, the command
availability cache, and the execute_command pipeline (spawn, two reader
tasks, one printing consumer, one accumulation channel, final drain).

All definitions are shallow embeddings of the Rust source.  Machine-level
details that the source delegates to the OS or to std (exit-status
semantics of Unix, the content of a freshly allocated String) are modelled
where first used, with a comment.
-/

namespace FedoraUpdater

/-! ### Constants (main.rs lines 14-17) -/

def DEFAULT_OUTPUT_CAPACITY : Nat := 4096

def DEFAULT_CHANNEL_CAPACITY : Nat := 100

def DEFAULT_LINE_CAPACITY : Nat := 256

def STRING_POOL_SIZE : Nat := 32

/-! ### StringBuffer and StringBufferPool (main.rs lines 161-210)

A `StringBuffer` is a reusable `String`; its allocation capacity does not
affect the observable content, so only the content is modelled (the
capacity argument is kept to mirror the source signature).
`StringBufferPool` wraps a `Vec<StringBuffer>`; `Vec` pushes and pops at
the back, which we model with a list whose head is the back of the vector.
-/

structure StringBuffer where
  buffer : String
  deriving Repr, DecidableEq

-- String::with_capacity yields an empty string (capacity is not content).
def StringBuffer.new (_capacity : Nat) : StringBuffer :=
  ⟨""⟩

def StringBuffer.clear (_b : StringBuffer) : StringBuffer :=
  ⟨""⟩

def StringBuffer.as_str (b : StringBuffer) : String :=
  b.buffer

structure StringBufferPool where
  buffers : List StringBuffer
  deriving Repr, DecidableEq

def StringBufferPool.new (size buffer_capacity : Nat) : StringBufferPool :=
  ⟨List.replicate size (StringBuffer.new buffer_capacity)⟩

-- self.buffers.pop().unwrap_or_else(|| StringBuffer::new(DEFAULT_LINE_CAPACITY))
def StringBufferPool.get (p : StringBufferPool) : StringBuffer × StringBufferPool :=
  match p.buffers with
  | [] => (StringBuffer.new DEFAULT_LINE_CAPACITY, ⟨[]⟩)
  | b :: rest => (b, ⟨rest⟩)

-- buffer.clear(); if self.buffers.len() < STRING_POOL_SIZE { self.buffers.push(buffer) }
def StringBufferPool.return_buffer (p : StringBufferPool) (buffer : StringBuffer) :
    StringBufferPool :=
  let buffer := buffer.clear
  if p.buffers.length < STRING_POOL_SIZE then ⟨buffer :: p.buffers⟩ else p

/-- Invariant: every buffer held inside the pool has empty content. -/
def PoolInv (p : StringBufferPool) : Prop :=
  ∀ b ∈ p.buffers, b.buffer = ""

/-! ### CommandCache (main.rs lines 34-128)

The cache pairs the fixed `known_commands` array with the `availability`
array of the same length; we model the two parallel arrays as one list of
pairs, preserving the index alignment and the first-match loops.
The external probe `Command::new("which").arg(cmd).output().await` is a
side effect of the environment; it enters the model as a parameter
`which : Option Bool` (`none` models an errored `output()`, `some b` the
value of `output.status.success()`), and each operation also reports
whether it ran the probe, so that probe invocations can be counted.
-/

structure CommandCache where
  entries : List (String × Option Bool)
  deriving Repr, DecidableEq

def CommandCache.new : CommandCache :=
  ⟨[("flatpak", none), ("dnf5", none), ("cat", none), ("uname", none)]⟩

-- the first-match lookup loop of is_cached_available
def lookupCached : List (String × Option Bool) → String → Option Bool
  | [], _ => none
  | (cmd, a) :: rest, command =>
      if cmd = command then a else lookupCached rest command

def CommandCache.is_cached_available (c : CommandCache) (command : String) : Option Bool :=
  lookupCached c.entries command

def CommandCache.get_cached_availability (c : CommandCache) (command : String) : Option Bool :=
  c.is_cached_available command

-- the slow-path store loop of is_command_available: on the first name match
-- store Some(available) and return available; fall through to false with the
-- entries untouched when the name is unknown
def storeLoop : List (String × Option Bool) → String → Bool →
    Bool × List (String × Option Bool)
  | [], _, _ => (false, [])
  | (cmd, a) :: rest, command, available =>
      if cmd = command then (available, (cmd, some available) :: rest)
      else
        let r := storeLoop rest command available
        (r.1, (cmd, a) :: r.2)

/-- Result of one `is_command_available` call: the returned boolean, the cache
after the call, and whether the external `which` probe was invoked. -/
structure AvailCall where
  result : Bool
  cache : CommandCache
  probed : Bool
  deriving Repr, DecidableEq

def CommandCache.is_command_available (c : CommandCache) (command : String)
    (which : Option Bool) : AvailCall :=
  match c.is_cached_available command with
  | some available => ⟨available, c, false⟩
  | none =>
      -- slow path: the probe runs; .map(success).unwrap_or(false)
      let available := which.getD false
      let r := storeLoop c.entries command available
      ⟨r.1, ⟨r.2⟩, true⟩

-- preload_common_commands: one task per (idx, cmd), each computing the probe
-- result for its own slot; every slot idx receives Some(result for cmd idx).
-- (Join failures of the spawned tasks — possible only on panic or abort,
-- neither of which the closure can produce — are not modelled.)
def CommandCache.preload_common_commands (c : CommandCache)
    (which : String → Option Bool) : CommandCache :=
  ⟨c.entries.map fun e => (e.1, some ((which e.1).getD false))⟩

/-! ### Reading the output streams of the child (main.rs lines 281-282, 302-304, 323-324)

`BufReader::new(stream).lines().next_line().await` yields
`Ok(Some(line))` for a complete line (newline stripped), `Ok(None)` at end
of stream, and `Err(_)` on a read failure — in particular tokio fails a
line containing invalid UTF-8 with an error instead of decoding it
lossily.  One read result is a `ReadEvent`; a whole stream is the list of
its successive read results.
-/

inductive ReadEvent where
  | line (s : String)
  | eof
  | err
  deriving Repr, DecidableEq

-- while let Ok(Some(line)) = reader.next_line().await { ... }:
-- the loop body sees exactly these lines, and the loop exits silently at the
-- first Ok(None) or Err(_), leaving the rest of the stream unread.
def readLines : List ReadEvent → List String
  | ReadEvent.line s :: rest => s :: readLines rest
  | _ => []

/-- Reading as the claim words it for malformed input: a line that fails to
read is tolerated by lossy conversion — decoded to a replacement string —
and reading continues.  Stated from the words of the spec, for comparison
with `readLines`, which is the embedding of the source. -/
def readLinesLossyClaim (lossyRepr : String) : List ReadEvent → List String
  | [] => []
  | ReadEvent.line s :: rest => s :: readLinesLossyClaim lossyRepr rest
  | ReadEvent.err :: rest => lossyRepr :: readLinesLossyClaim lossyRepr rest
  | ReadEvent.eof :: _ => []

/-! ### Exit status (std::process::ExitStatus on Unix)

`code()` returns `Some(n)` when the child exited with code `n` and `none`
when it was killed by a signal; `success()` holds exactly for exit code 0.
-/

structure ExitStatus where
  code : Option Int
  deriving Repr, DecidableEq

def ExitStatus.success (s : ExitStatus) : Bool :=
  s.code == some 0

def ExitStatus.ofExitCode (n : Int) : ExitStatus :=
  ⟨some n⟩

-- update_dnf5 (main.rs line 465): exit code 100 of check-upgrade means
-- updates are available
def dnf5_has_updates (status : ExitStatus) : Bool :=
  status.code == some 100

/-! ### execute_command, functional model of a completed invocation
(main.rs lines 235-363)

The environment of one invocation — everything the OS decides — enters as
a `ProcessEnv`: whether the spawn succeeds, whether the two pipe handles
are obtainable, the read results of the two streams, and the exit status
of the child.  The accumulated output of a completed run is the source
fold of main.rs lines 352-355: each line received from the accumulation
channel appended, followed by one pushed newline.  (That every line read
from stdout reaches that fold exactly once and in read order, whenever the
invocation completes, is proved separately over the step model of the task
system below.)
-/

-- the collection loop: output_buffer.push_str(buffer.as_str()) then push a newline
def collectFold (lines : List String) : String :=
  lines.foldl (fun acc l => acc ++ l ++ "\n") ""

inductive CmdError where
  | spawnError (command : String)   -- context: Failed to execute <command> command
  | stdoutCaptureError              -- "Failed to capture stdout"
  | stderrCaptureError              -- "Failed to capture stderr"
  deriving Repr, DecidableEq

structure ProcessEnv where
  spawnOk : Bool
  stdoutHandle : Bool
  stderrHandle : Bool
  stdoutEvents : List ReadEvent
  stderrEvents : List ReadEvent
  status : ExitStatus
  deriving Repr, DecidableEq

def execute_command (command : String) (env : ProcessEnv) :
    Except CmdError (ExitStatus × String) :=
  if env.spawnOk = false then Except.error (CmdError.spawnError command)
  else if env.stdoutHandle = false then Except.error CmdError.stdoutCaptureError
  else if env.stderrHandle = false then Except.error CmdError.stderrCaptureError
  else Except.ok (env.status, collectFold (readLines env.stdoutEvents))

/-! ### Step model of the task system inside execute_command
(main.rs lines 284-359 and output_handler, lines 539-553)

After a successful spawn, five agents run concurrently:

* the stdout reader task (lines 302-318): loop = read a line, send a copy
  into the accumulation channel, send a tagged copy into the print
  channel, repeat; ends when the read is not Ok(Some(_));
* the stderr reader task (lines 323-335): read a line, send a tagged copy
  into the print channel, repeat;
* the output handler (lines 539-553): receive from the print channel and
  print one tagged line per message; ends when the channel is empty and
  every sender into it has been dropped;
* the child process, which exits at some point;
* the main task (lines 337-359), which in program order waits for the
  child, drops its two senders, joins the reader tasks, joins the output
  handler, and only then drains the accumulation channel into the output
  buffer.

Both channels are bounded mpsc channels of capacity
DEFAULT_CHANNEL_CAPACITY = 100: a send is enabled only while the channel
holds fewer than 100 messages.  Channels are FIFO: a send appends at the
back, a receive takes the front.  Line buffers drawn from the pool are
empty (the pool invariant proved below), so the content of each message is
exactly the line pushed into it; the model therefore carries the lines
themselves as the messages.

Each agent is modelled by a program counter plus the data it still holds;
`MuxStep` is one enabled transition of one agent, and `Reach` the
reflexive-transitive closure from the initial state.  The child may exit
at any moment (the model over-approximates the child, which can only make
blocking results stronger).
-/

inductive OutputSource where
  | stdout
  | stderr
  deriving Repr, DecidableEq

/-- Program counter of the stdout reader task.  `accumSending l` holds the
line just read, not yet sent into the accumulation channel; `printSending l`
holds its copy for the print channel (the accumulation copy already sent). -/
inductive StdoutPhase where
  | reading
  | accumSending (l : String)
  | printSending (l : String)
  | done
  deriving Repr, DecidableEq

/-- Program counter of the stderr reader task. -/
inductive StderrPhase where
  | reading
  | sending (l : String)
  | done
  deriving Repr, DecidableEq

/-- Program counter of the main task after the spawn: waiting on
child.wait(), then (senders tx and line_tx dropped) joining the readers,
joining the output handler, draining the accumulation channel, done. -/
inductive MainPhase where
  | waitChild
  | joinReaders
  | joinHandler
  | drainAccum
  | done
  deriving Repr, DecidableEq

structure MuxState where
  stdoutRem : List ReadEvent            -- unread stdout read results
  sout : StdoutPhase
  stderrRem : List ReadEvent            -- unread stderr read results
  serr : StderrPhase
  accumQ : List String                  -- accumulation channel content, front first
  printQ : List (OutputSource × String) -- print channel content, front first
  outputLines : List String             -- lines already drained into output_buffer
  printed : List (OutputSource × String) -- lines already printed by the handler
  handlerDone : Bool
  childExited : Bool
  mainPh : MainPhase
  deriving Repr, DecidableEq

def initState (stdoutEvents stderrEvents : List ReadEvent) : MuxState :=
  { stdoutRem := stdoutEvents
    sout := StdoutPhase.reading
    stderrRem := stderrEvents
    serr := StderrPhase.reading
    accumQ := []
    printQ := []
    outputLines := []
    printed := []
    handlerDone := false
    childExited := false
    mainPh := MainPhase.waitChild }

/-- True when the next read result is not a complete line, so that
`while let Ok(Some(line))` exits. -/
def noLineNext : List ReadEvent → Prop
  | ReadEvent.line _ :: _ => False
  | _ => True

instance : DecidablePred noLineNext := by
  intro l
  match l with
  | ReadEvent.line _ :: _ => exact isFalse (fun h => h)
  | [] => exact isTrue trivial
  | ReadEvent.eof :: _ => exact isTrue trivial
  | ReadEvent.err :: _ => exact isTrue trivial

inductive MuxStep : MuxState → MuxState → Prop where
  | stdoutRead (s : MuxState) (l : String) (rest : List ReadEvent)
      (hp : s.sout = StdoutPhase.reading)
      (hr : s.stdoutRem = ReadEvent.line l :: rest) :
      MuxStep s { s with sout := StdoutPhase.accumSending l, stdoutRem := rest }
  | stdoutEnd (s : MuxState)
      (hp : s.sout = StdoutPhase.reading)
      (hr : noLineNext s.stdoutRem) :
      MuxStep s { s with sout := StdoutPhase.done }
  | stdoutAccumSend (s : MuxState) (l : String)
      (hp : s.sout = StdoutPhase.accumSending l)
      (hq : s.accumQ.length < DEFAULT_CHANNEL_CAPACITY) :
      MuxStep s { s with accumQ := s.accumQ ++ [l], sout := StdoutPhase.printSending l }
  | stdoutPrintSend (s : MuxState) (l : String)
      (hp : s.sout = StdoutPhase.printSending l)
      (hq : s.printQ.length < DEFAULT_CHANNEL_CAPACITY) :
      MuxStep s { s with printQ := s.printQ ++ [(OutputSource.stdout, l)],
                         sout := StdoutPhase.reading }
  | stderrRead (s : MuxState) (l : String) (rest : List ReadEvent)
      (hp : s.serr = StderrPhase.reading)
      (hr : s.stderrRem = ReadEvent.line l :: rest) :
      MuxStep s { s with serr := StderrPhase.sending l, stderrRem := rest }
  | stderrEnd (s : MuxState)
      (hp : s.serr = StderrPhase.reading)
      (hr : noLineNext s.stderrRem) :
      MuxStep s { s with serr := StderrPhase.done }
  | stderrPrintSend (s : MuxState) (l : String)
      (hp : s.serr = StderrPhase.sending l)
      (hq : s.printQ.length < DEFAULT_CHANNEL_CAPACITY) :
      MuxStep s { s with printQ := s.printQ ++ [(OutputSource.stderr, l)],
                         serr := StderrPhase.reading }
  | handlerRecv (s : MuxState) (m : OutputSource × String) (rest : List (OutputSource × String))
      (hd : s.handlerDone = false)
      (hq : s.printQ = m :: rest) :
      MuxStep s { s with printQ := rest, printed := s.printed ++ [m] }
  | handlerFinish (s : MuxState)
      (hd : s.handlerDone = false)
      (hq : s.printQ = [])
      (hso : s.sout = StdoutPhase.done)
      (hse : s.serr = StderrPhase.done)
      (hm : s.mainPh ≠ MainPhase.waitChild) :
      MuxStep s { s with handlerDone := true }
  | childExit (s : MuxState)
      (hc : s.childExited = false) :
      MuxStep s { s with childExited := true }
  | mainWaited (s : MuxState)
      (hm : s.mainPh = MainPhase.waitChild)
      (hc : s.childExited = true) :
      MuxStep s { s with mainPh := MainPhase.joinReaders }
  | mainJoinedReaders (s : MuxState)
      (hm : s.mainPh = MainPhase.joinReaders)
      (hso : s.sout = StdoutPhase.done)
      (hse : s.serr = StderrPhase.done) :
      MuxStep s { s with mainPh := MainPhase.joinHandler }
  | mainJoinedHandler (s : MuxState)
      (hm : s.mainPh = MainPhase.joinHandler)
      (hh : s.handlerDone = true) :
      MuxStep s { s with mainPh := MainPhase.drainAccum }
  | mainDrainRecv (s : MuxState) (l : String) (rest : List String)
      (hm : s.mainPh = MainPhase.drainAccum)
      (hq : s.accumQ = l :: rest) :
      MuxStep s { s with accumQ := rest, outputLines := s.outputLines ++ [l] }
  | mainDrainDone (s : MuxState)
      (hm : s.mainPh = MainPhase.drainAccum)
      (hq : s.accumQ = [])
      (hso : s.sout = StdoutPhase.done) :
      MuxStep s { s with mainPh := MainPhase.done }

inductive Reach (init : MuxState) : MuxState → Prop where
  | refl : Reach init init
  | step {s s' : MuxState} : Reach init s → MuxStep s s' → Reach init s'

/-- The line still held by the stdout task that has not yet entered the
accumulation channel. -/
def pendingAccum : StdoutPhase → List String
  | StdoutPhase.accumSending l => [l]
  | _ => []

/-- Accumulation-flow invariant: lines drained into the output buffer, then
the accumulation channel, then the line held by the reader, then the lines
still to be read, concatenate to all the lines of the stdout stream. -/
def AccInv (stdoutEvents : List ReadEvent) (s : MuxState) : Prop :=
  s.outputLines ++ s.accumQ ++ pendingAccum s.sout ++ readLines s.stdoutRem
      = readLines stdoutEvents
    ∧ (s.sout = StdoutPhase.done → readLines s.stdoutRem = [])
    ∧ (s.mainPh = MainPhase.done → s.accumQ = [] ∧ s.sout = StdoutPhase.done)

/-- Counting invariant behind the blocked accumulation channel: while no
receive has happened, the channel content plus the held line plus the
unread lines account for the whole stream; a receive happens only in the
drain phase, which the main task reaches only after joining the reader. -/
def CountInv (stdoutEvents : List ReadEvent) (s : MuxState) : Prop :=
  s.outputLines = []
    ∧ s.accumQ.length + (pendingAccum s.sout).length + (readLines s.stdoutRem).length
        = (readLines stdoutEvents).length
    ∧ s.accumQ.length ≤ DEFAULT_CHANNEL_CAPACITY
    ∧ s.sout ≠ StdoutPhase.done
    ∧ (s.mainPh = MainPhase.waitChild ∨ s.mainPh = MainPhase.joinReaders)

/-! ## Theorems -/

/-! ### Lemmas on the cache loops -/

theorem lookupCached_not_mem (entries : List (String × Option Bool)) (command : String)
    (h : command ∉ entries.map Prod.fst) :
    lookupCached entries command = none := by
  induction entries with
  | nil => rfl
  | cons e rest ih =>
      obtain ⟨cmd, a⟩ := e
      simp only [List.map_cons, List.mem_cons] at h
      push_neg at h
      have hc : ¬ cmd = command := fun he => h.1 he.symm
      simp only [lookupCached, if_neg hc]
      exact ih h.2

theorem storeLoop_not_mem (entries : List (String × Option Bool)) (command : String)
    (available : Bool) (h : command ∉ entries.map Prod.fst) :
    storeLoop entries command available = (false, entries) := by
  induction entries with
  | nil => rfl
  | cons e rest ih =>
      obtain ⟨cmd, a⟩ := e
      simp only [List.map_cons, List.mem_cons] at h
      push_neg at h
      have hc : ¬ cmd = command := fun he => h.1 he.symm
      simp only [storeLoop, if_neg hc, ih h.2]

theorem storeLoop_mem (entries : List (String × Option Bool)) (command : String)
    (available : Bool) (h : command ∈ entries.map Prod.fst) :
    (storeLoop entries command available).1 = available
      ∧ lookupCached (storeLoop entries command available).2 command = some available := by
  induction entries with
  | nil => simp at h
  | cons e rest ih =>
      obtain ⟨cmd, a⟩ := e
      by_cases hc : cmd = command
      · constructor
        · simp only [storeLoop, if_pos hc]
        · simp only [storeLoop, if_pos hc, lookupCached, if_pos hc]
      · simp only [List.map_cons, List.mem_cons] at h
        rcases h with h | h
        · exact absurd h.symm hc
        · have := ih h
          constructor
          · simp only [storeLoop, if_neg hc]
            exact this.1
          · simp only [storeLoop, if_neg hc, lookupCached, if_neg hc]
            exact this.2

theorem lookupCached_preload (entries : List (String × Option Bool))
    (which : String → Option Bool) (command : String)
    (h : command ∈ entries.map Prod.fst) :
    lookupCached (entries.map fun e => (e.1, some ((which e.1).getD false))) command
      = some ((which command).getD false) := by
  induction entries with
  | nil => simp at h
  | cons e rest ih =>
      obtain ⟨cmd, a⟩ := e
      by_cases hc : cmd = command
      · subst hc
        simp [lookupCached]
      · simp only [List.map_cons, List.mem_cons] at h
        rcases h with h | h
        · exact absurd h.symm hc
        · simp only [List.map_cons, lookupCached, if_neg hc]
          exact ih h

/-- Claim C3 (counterexample): the claim quantifies over every tool name, but
probing a name outside the fixed known set — here "foo" — twice invokes the
external `which` lookup twice: the first call does not cache its result, so
the second call re-runs the probe. -/
theorem C3_counterexample_unknown_probed_twice :
    (CommandCache.new.is_command_available "foo" (some true)).probed = true
      ∧ ((CommandCache.new.is_command_available "foo" (some true)).cache.is_command_available
          "foo" (some true)).probed = true := by
  constructor <;> rfl

/-- Claim C3 (amended): for every tool name in the fixed known set of the
cache, probing availability twice invokes the external presence check at most
once: the second call returns the cached result of the first and never
re-invokes the `which` lookup within the same run. -/
theorem C3_second_probe_cached (c : CommandCache) (command : String)
    (w1 w2 : Option Bool) (h : command ∈ c.entries.map Prod.fst) :
    ((c.is_command_available command w1).cache.is_command_available command w2).probed = false
      ∧ ((c.is_command_available command w1).cache.is_command_available command w2).result
          = (c.is_command_available command w1).result := by
  cases hl : c.is_cached_available command with
  | some a =>
      simp [CommandCache.is_command_available, hl]
  | none =>
      have hs := storeLoop_mem c.entries command (w1.getD false) h
      have hl2 : CommandCache.is_cached_available
          ⟨(storeLoop c.entries command (w1.getD false)).2⟩ command
          = some (w1.getD false) := hs.2
      simp [CommandCache.is_command_available, hl, hl2, hs.1]

/-- Claim C3 witness: the spec scenario — probing "dnf5" when `which dnf5`
exits non-zero returns false; the second probe in the same run does not
re-invoke the lookup and returns the same cached answer. -/
theorem C3_second_probe_cached_witness :
    ("dnf5" ∈ CommandCache.new.entries.map Prod.fst)
      ∧ (((CommandCache.new.is_command_available "dnf5" (some false)).cache.is_command_available
            "dnf5" (some false)).probed = false
          ∧ ((CommandCache.new.is_command_available "dnf5" (some false)).cache.is_command_available
              "dnf5" (some false)).result
            = (CommandCache.new.is_command_available "dnf5" (some false)).result) :=
  ⟨by decide, C3_second_probe_cached CommandCache.new "dnf5" (some false) (some false) (by decide)⟩

/-- Claim C7: after preload completes, the cached-availability query returns
Some(_) for every name in the preloaded set — the computed probe answer,
never None — and a later probe of a preloaded name does not re-run the
external check. -/
theorem C7_preload_populates (c : CommandCache) (which : String → Option Bool)
    (command : String) (w : Option Bool) (h : command ∈ c.entries.map Prod.fst) :
    (c.preload_common_commands which).is_cached_available command
        = some ((which command).getD false)
      ∧ ((c.preload_common_commands which).is_command_available command w).probed = false := by
  have hl : (c.preload_common_commands which).is_cached_available command
      = some ((which command).getD false) :=
    lookupCached_preload c.entries which command h
  refine ⟨hl, ?_⟩
  simp only [CommandCache.is_command_available, hl]

/-- Claim C7 witness: after preloading the four known commands with a probe
that reports dnf5 missing, the cached query for "dnf5" is Some(false) and a
later probe does not re-run the check. -/
theorem C7_preload_populates_witness :
    ("dnf5" ∈ CommandCache.new.entries.map Prod.fst)
      ∧ ((CommandCache.new.preload_common_commands fun _ => some false).is_cached_available
            "dnf5" = some ((some false : Option Bool).getD false)
          ∧ ((CommandCache.new.preload_common_commands fun _ => some false).is_command_available
              "dnf5" none).probed = false) :=
  ⟨by decide,
    C7_preload_populates CommandCache.new (fun _ => some false) "dnf5" none (by decide)⟩

/-- Claim C9: for every command name outside the fixed known set
flatpak, dnf5, cat, uname — the names held by the cache — is_command_available
returns false regardless of the outcome of the `which` presence check, the
probe is re-run (probed = true), and the cache is left unchanged, so the
cached-availability query stays None. -/
theorem C9_unknown_command_never_cached (c : CommandCache) (command : String)
    (which : Option Bool) (h : command ∉ c.entries.map Prod.fst) :
    c.is_command_available command which = ⟨false, c, true⟩
      ∧ c.is_cached_available command = none := by
  have hl : c.is_cached_available command = none :=
    lookupCached_not_mem c.entries command h
  refine ⟨?_, hl⟩
  simp only [CommandCache.is_command_available, hl,
    storeLoop_not_mem c.entries command (which.getD false) h]

/-- Claim C9 witness: probing the unknown name "foo" with a succeeding
`which` still returns false, reports the probe as run, leaves the cache
unchanged, and the cached query stays None. -/
theorem C9_unknown_command_never_cached_witness :
    ("foo" ∉ CommandCache.new.entries.map Prod.fst)
      ∧ (CommandCache.new.is_command_available "foo" (some true)
            = ⟨false, CommandCache.new, true⟩
          ∧ CommandCache.new.is_cached_available "foo" = none) :=
  ⟨by decide, C9_unknown_command_never_cached CommandCache.new "foo" (some true) (by decide)⟩

/-- Claim C8: the line-buffer pool is capped — returning a buffer never grows
the pool beyond STRING_POOL_SIZE entries (and never beyond the larger of the
current size and the cap) — and a get on an empty pool allocates a fresh
line-capacity buffer rather than failing or blocking. -/
theorem C8_pool_capped (p : StringBufferPool) (b : StringBuffer) :
    (p.return_buffer b).buffers.length ≤ max p.buffers.length STRING_POOL_SIZE
      ∧ (p.buffers.length ≤ STRING_POOL_SIZE →
          (p.return_buffer b).buffers.length ≤ STRING_POOL_SIZE)
      ∧ StringBufferPool.get ⟨[]⟩ = (StringBuffer.new DEFAULT_LINE_CAPACITY, ⟨[]⟩) := by
  unfold StringBufferPool.return_buffer
  by_cases hlen : p.buffers.length < STRING_POOL_SIZE
  · simp only [if_pos hlen, List.length_cons]
    exact ⟨le_max_of_le_right hlen, fun _ => hlen, rfl⟩
  · simp only [if_neg hlen]
    exact ⟨le_max_left _ _, fun hle => hle, rfl⟩

/-- Claim C8 witness: returning a buffer to the full freshly constructed pool
keeps it at STRING_POOL_SIZE entries. -/
theorem C8_pool_capped_witness :
    ((StringBufferPool.new STRING_POOL_SIZE DEFAULT_LINE_CAPACITY).buffers.length
        ≤ STRING_POOL_SIZE)
      ∧ (((StringBufferPool.new STRING_POOL_SIZE DEFAULT_LINE_CAPACITY).return_buffer
            ⟨"leftover"⟩).buffers.length ≤ STRING_POOL_SIZE) :=
  ⟨by decide,
    (C8_pool_capped (StringBufferPool.new STRING_POOL_SIZE DEFAULT_LINE_CAPACITY)
      ⟨"leftover"⟩).2.1 (by decide)⟩

/-- Claim C10: every buffer held inside the pool has empty content — the
constructor fills the pool with empty buffers, return_buffer clears a buffer
before pooling it, and a get hands out an empty buffer while preserving the
invariant. -/
theorem C10_pool_buffers_empty :
    (∀ size cap, PoolInv (StringBufferPool.new size cap))
      ∧ (∀ (p : StringBufferPool) (buf : StringBuffer), PoolInv p → PoolInv (p.return_buffer buf))
      ∧ (∀ p : StringBufferPool, PoolInv p →
          (p.get.1.buffer = "" ∧ PoolInv p.get.2)) := by
  refine ⟨?_, ?_, ?_⟩
  · intro size cap b hb
    have := List.eq_of_mem_replicate hb
    simp [this, StringBuffer.new]
  · intro p buf hp
    unfold StringBufferPool.return_buffer
    by_cases hlen : p.buffers.length < STRING_POOL_SIZE
    · simp only [if_pos hlen]
      intro b hb
      rcases List.mem_cons.mp hb with hb | hb
      · simp [hb, StringBuffer.clear]
      · exact hp b hb
    · simp only [if_neg hlen]
      exact hp
  · intro p hp
    unfold StringBufferPool.get
    cases hbuf : p.buffers with
    | nil => exact ⟨rfl, by intro b hb; simp at hb⟩
    | cons b rest =>
        constructor
        · exact hp b (by simp [hbuf])
        · intro x hx
          exact hp x (by simp [hbuf]; right; simpa using hx)

/-- Claim C10 witness: a concrete pool run — construct, return a dirty
buffer, get — always hands out an empty buffer and keeps every pooled buffer
empty. -/
theorem C10_pool_buffers_empty_witness :
    PoolInv ((StringBufferPool.new 2 8).return_buffer ⟨"dirty"⟩)
      ∧ ((StringBufferPool.new 2 8).return_buffer ⟨"dirty"⟩).get.1.buffer = "" :=
  ⟨C10_pool_buffers_empty.2.1 (StringBufferPool.new 2 8) ⟨"dirty"⟩
      (C10_pool_buffers_empty.1 2 8),
    (C10_pool_buffers_empty.2.2 ((StringBufferPool.new 2 8).return_buffer ⟨"dirty"⟩)
      (C10_pool_buffers_empty.2.1 (StringBufferPool.new 2 8) ⟨"dirty"⟩
        (C10_pool_buffers_empty.1 2 8))).1⟩

/-- Claim C4: when the executable cannot be launched (not found, permission
denied), execute_command fails with the spawn error — naming the command —
propagated to the caller, and no exit-status-plus-output result is
produced. -/
theorem C4_spawn_error_propagates (command : String) (env : ProcessEnv)
    (h : env.spawnOk = false) :
    execute_command command env = Except.error (CmdError.spawnError command)
      ∧ ∀ r : ExitStatus × String, execute_command command env ≠ Except.ok r := by
  unfold execute_command
  simp [h]

/-- Claim C4 witness: a run of a missing "dnf5" executable whose spawn fails
propagates the spawn error. -/
theorem C4_spawn_error_propagates_witness :
    ((⟨false, true, true, [], [], ExitStatus.ofExitCode 0⟩ : ProcessEnv).spawnOk = false)
      ∧ (execute_command "dnf5" ⟨false, true, true, [], [], ExitStatus.ofExitCode 0⟩
            = Except.error (CmdError.spawnError "dnf5")
          ∧ ∀ r : ExitStatus × String,
              execute_command "dnf5" ⟨false, true, true, [], [], ExitStatus.ofExitCode 0⟩
                ≠ Except.ok r) :=
  ⟨rfl, C4_spawn_error_propagates "dnf5" ⟨false, true, true, [], [], ExitStatus.ofExitCode 0⟩ rfl⟩

/-- Claim C5: for every completed invocation the exit status of the child is
returned unmodified; a child exiting with code 100 yields an exit status
whose code is Some(100) and whose success flag is false — which is exactly
what the dnf5 check-upgrade caller inspects. -/
theorem C5_exit_code_unmodified (command : String)
    (stdoutEvents stderrEvents : List ReadEvent) (status : ExitStatus) :
    execute_command command ⟨true, true, true, stdoutEvents, stderrEvents, status⟩
        = Except.ok (status, collectFold (readLines stdoutEvents))
      ∧ (ExitStatus.ofExitCode 100).code = some 100
      ∧ (ExitStatus.ofExitCode 100).success = false
      ∧ dnf5_has_updates (ExitStatus.ofExitCode 100) = true :=
  ⟨rfl, rfl, rfl, rfl⟩

/-- Claim C6 (counterexample): a malformed line is not decoded by lossy
conversion.  On the stream line "a", read failure, line "b", end of stream,
the source reading stops at the failure and accumulates only "a" — the
lossy-conversion reading the claim words would instead keep a replacement
line and the following line "b". -/
theorem C6_counterexample_no_lossy_conversion :
    readLines [ReadEvent.line "a", ReadEvent.err, ReadEvent.line "b", ReadEvent.eof] = ["a"]
      ∧ readLinesLossyClaim "�"
          [ReadEvent.line "a", ReadEvent.err, ReadEvent.line "b", ReadEvent.eof]
          = ["a", "�", "b"]
      ∧ readLines [ReadEvent.line "a", ReadEvent.err, ReadEvent.line "b", ReadEvent.eof]
          ≠ readLinesLossyClaim "�"
            [ReadEvent.line "a", ReadEvent.err, ReadEvent.line "b", ReadEvent.eof]
      ∧ execute_command "cat"
          ⟨true, true, true, [ReadEvent.line "a", ReadEvent.err, ReadEvent.line "b",
            ReadEvent.eof], [], ExitStatus.ofExitCode 0⟩
          = Except.ok (ExitStatus.ofExitCode 0, "a\n") := by
  refine ⟨rfl, rfl, by decide, rfl⟩

/-- Claim C6 (amended): a line-read failure on either output stream never
causes execute_command to fail — on a read error the reader silently stops
consuming that stream, dropping the malformed line and whatever follows on
that stream, and the exit status of the command is still returned
normally. -/
theorem C6_read_error_never_fails (command : String)
    (stdoutEvents stderrEvents : List ReadEvent) (status : ExitStatus)
    (rest : List ReadEvent) :
    execute_command command ⟨true, true, true, stdoutEvents, stderrEvents, status⟩
        = Except.ok (status, collectFold (readLines stdoutEvents))
      ∧ readLines (ReadEvent.err :: rest) = [] :=
  ⟨rfl, rfl⟩

/-! ### Lemmas on the step model -/

theorem readLines_noLineNext : ∀ {l : List ReadEvent}, noLineNext l → readLines l = []
  | [], _ => rfl
  | ReadEvent.eof :: _, _ => rfl
  | ReadEvent.err :: _, _ => rfl
  | ReadEvent.line _ :: _, h => h.elim

theorem AccInv_init (stdoutEvents stderrEvents : List ReadEvent) :
    AccInv stdoutEvents (initState stdoutEvents stderrEvents) := by
  refine ⟨?_, ?_, ?_⟩
  · simp [initState, pendingAccum]
  · intro h
    simp [initState] at h
  · intro h
    simp [initState] at h

theorem AccInv_step (L : List ReadEvent) {s t : MuxState}
    (h : AccInv L s) (hs : MuxStep s t) : AccInv L t := by
  obtain ⟨h1, h2, h3⟩ := h
  cases hs with
  | stdoutRead l rest hp hr =>
      refine ⟨?_, ?_, ?_⟩
      · rw [hp, hr] at h1
        simpa [pendingAccum, readLines, List.append_assoc] using h1
      · intro hd
        simp at hd
      · intro hd
        have := (h3 hd).2
        rw [hp] at this
        simp at this
  | stdoutEnd hp hr =>
      refine ⟨?_, ?_, ?_⟩
      · rw [hp] at h1
        simpa [pendingAccum] using h1
      · intro _
        exact readLines_noLineNext hr
      · intro hd
        exact ⟨(h3 hd).1, rfl⟩
  | stdoutAccumSend l hp hq =>
      refine ⟨?_, ?_, ?_⟩
      · rw [hp] at h1
        simpa [pendingAccum, List.append_assoc] using h1
      · intro hd
        simp at hd
      · intro hd
        have := (h3 hd).2
        rw [hp] at this
        simp at this
  | stdoutPrintSend l hp hq =>
      refine ⟨?_, ?_, ?_⟩
      · rw [hp] at h1
        simpa [pendingAccum] using h1
      · intro hd
        simp at hd
      · intro hd
        have := (h3 hd).2
        rw [hp] at this
        simp at this
  | stderrRead l rest hp hr =>
      exact ⟨h1, h2, h3⟩
  | stderrEnd hp hr =>
      exact ⟨h1, h2, h3⟩
  | stderrPrintSend l hp hq =>
      exact ⟨h1, h2, h3⟩
  | handlerRecv m rest hd hq =>
      exact ⟨h1, h2, h3⟩
  | handlerFinish hd hq hso hse hm =>
      exact ⟨h1, h2, h3⟩
  | childExit hc =>
      exact ⟨h1, h2, h3⟩
  | mainWaited hm hc =>
      refine ⟨h1, h2, ?_⟩
      intro hd
      simp at hd
  | mainJoinedReaders hm hso hse =>
      refine ⟨h1, h2, ?_⟩
      intro hd
      simp at hd
  | mainJoinedHandler hm hh =>
      refine ⟨h1, h2, ?_⟩
      intro hd
      simp at hd
  | mainDrainRecv l rest hm hq =>
      refine ⟨?_, h2, ?_⟩
      · rw [hq] at h1
        simpa [List.append_assoc] using h1
      · intro hd
        rw [hm] at hd
        simp at hd
  | mainDrainDone hm hq hso =>
      refine ⟨h1, h2, ?_⟩
      intro _
      exact ⟨hq, hso⟩

theorem AccInv_reach (L E : List ReadEvent) {s : MuxState}
    (h : Reach (initState L E) s) : AccInv L s := by
  induction h with
  | refl => exact AccInv_init L E
  | step _ hstep ih => exact AccInv_step L ih hstep

theorem strJoin_cons (a : String) (l : List String) :
    String.join (a :: l) = a ++ String.join l := by
  apply String.ext
  simp

theorem collectFold_go (ls : List String) (acc : String) :
    List.foldl (fun acc l => acc ++ l ++ "\n") acc ls
      = acc ++ String.join (ls.map fun l => l ++ "\n") := by
  induction ls generalizing acc with
  | nil => simp [String.join]
  | cons x xs ih =>
      simp only [List.foldl_cons, List.map_cons]
      rw [ih, strJoin_cons]
      simp only [String.append_assoc]

theorem collectFold_eq_join (ls : List String) :
    collectFold ls = String.join (ls.map fun l => l ++ "\n") := by
  unfold collectFold
  rw [collectFold_go, String.empty_append]

/-- Claim C1: in every execution of the task system inside execute_command
that completes (the main task reaches its final state), the captured-output
string built by the collection loop equals the exact concatenation, in read
order, of every line read from the stdout stream of the child, each line
followed by a single newline — whatever the interleaving with the stderr
lines on the console was. -/
theorem C1_accumulated_output (stdoutEvents stderrEvents : List ReadEvent) (s : MuxState)
    (h : Reach (initState stdoutEvents stderrEvents) s)
    (hdone : s.mainPh = MainPhase.done) :
    collectFold s.outputLines
      = String.join ((readLines stdoutEvents).map fun l => l ++ "\n") := by
  obtain ⟨h1, h2, h3⟩ := AccInv_reach stdoutEvents stderrEvents h
  obtain ⟨hq, hso⟩ := h3 hdone
  have hrem := h2 hso
  rw [hq, hso, hrem] at h1
  simp only [pendingAccum, List.append_nil] at h1
  rw [h1]
  exact collectFold_eq_join _

/-- Claim C1 witness: the spec scenario run("echo", ["hello"]) — stdout
produces the single line "hello" and ends; a complete execution of the task
system reaches the final state with accumulated output exactly "hello\n". -/
theorem C1_accumulated_output_witness :
    ∃ s : MuxState,
      Reach (initState [ReadEvent.line "hello", ReadEvent.eof] [ReadEvent.eof]) s
        ∧ s.mainPh = MainPhase.done
        ∧ collectFold s.outputLines = "hello\n" := by
  have h0 : Reach (initState [ReadEvent.line "hello", ReadEvent.eof] [ReadEvent.eof])
      (initState [ReadEvent.line "hello", ReadEvent.eof] [ReadEvent.eof]) := Reach.refl
  have h1 := Reach.step h0 (MuxStep.stdoutRead _ _ _ rfl rfl)
  have h2 := Reach.step h1 (MuxStep.stdoutAccumSend _ _ rfl (by decide))
  have h3 := Reach.step h2 (MuxStep.stdoutPrintSend _ _ rfl (by decide))
  have h4 := Reach.step h3 (MuxStep.stdoutEnd _ rfl (by trivial))
  have h5 := Reach.step h4 (MuxStep.stderrEnd _ rfl (by trivial))
  have h6 := Reach.step h5 (MuxStep.childExit _ rfl)
  have h7 := Reach.step h6 (MuxStep.mainWaited _ rfl rfl)
  have h8 := Reach.step h7 (MuxStep.handlerRecv _ _ _ rfl rfl)
  have h9 := Reach.step h8 (MuxStep.handlerFinish _ rfl rfl rfl rfl (by decide))
  have h10 := Reach.step h9 (MuxStep.mainJoinedReaders _ rfl rfl rfl)
  have h11 := Reach.step h10 (MuxStep.mainJoinedHandler _ rfl rfl)
  have h12 := Reach.step h11 (MuxStep.mainDrainRecv _ _ _ rfl rfl)
  have h13 := Reach.step h12 (MuxStep.mainDrainDone _ rfl rfl rfl)
  exact ⟨_, h13, rfl, (C1_accumulated_output _ _ _ h13 rfl).trans (by decide)⟩

theorem CountInv_init (stdoutEvents stderrEvents : List ReadEvent) :
    CountInv stdoutEvents (initState stdoutEvents stderrEvents) := by
  refine ⟨rfl, ?_, ?_, ?_, Or.inl rfl⟩
  · simp [initState, pendingAccum]
  · simp [initState, DEFAULT_CHANNEL_CAPACITY]
  · simp [initState]

theorem CountInv_step (L : List ReadEvent)
    (hN : DEFAULT_CHANNEL_CAPACITY < (readLines L).length)
    {s t : MuxState} (h : CountInv L s) (hs : MuxStep s t) : CountInv L t := by
  obtain ⟨c1, c2, c3, c4, c5⟩ := h
  cases hs with
  | stdoutRead l rest hp hr =>
      rw [hp] at c2
      rw [hr] at c2
      simp only [pendingAccum, readLines, List.length_nil, List.length_cons] at c2
      refine ⟨c1, ?_, c3, by simp, c5⟩
      simp only [pendingAccum, List.length_cons, List.length_nil]
      omega
  | stdoutEnd hp hr =>
      exfalso
      rw [hp, readLines_noLineNext hr] at c2
      simp only [pendingAccum, List.length_nil] at c2
      omega
  | stdoutAccumSend l hp hq =>
      rw [hp] at c2
      simp only [pendingAccum, List.length_cons, List.length_nil] at c2
      refine ⟨c1, ?_, ?_, by simp, c5⟩
      · simp only [pendingAccum, List.length_append, List.length_cons, List.length_nil]
        omega
      · simp only [List.length_append, List.length_cons, List.length_nil]
        omega
  | stdoutPrintSend l hp hq =>
      rw [hp] at c2
      refine ⟨c1, ?_, c3, by simp, c5⟩
      simpa [pendingAccum] using c2
  | stderrRead l rest hp hr =>
      exact ⟨c1, c2, c3, c4, c5⟩
  | stderrEnd hp hr =>
      exact ⟨c1, c2, c3, c4, c5⟩
  | stderrPrintSend l hp hq =>
      exact ⟨c1, c2, c3, c4, c5⟩
  | handlerRecv m rest hd hq =>
      exact ⟨c1, c2, c3, c4, c5⟩
  | handlerFinish hd hq hso hse hm =>
      exact absurd hso c4
  | childExit hc =>
      exact ⟨c1, c2, c3, c4, c5⟩
  | mainWaited hm hc =>
      exact ⟨c1, c2, c3, c4, Or.inr rfl⟩
  | mainJoinedReaders hm hso hse =>
      exact absurd hso c4
  | mainJoinedHandler hm hh =>
      rcases c5 with c5 | c5 <;> rw [hm] at c5 <;> simp at c5
  | mainDrainRecv l rest hm hq =>
      rcases c5 with c5 | c5 <;> rw [hm] at c5 <;> simp at c5
  | mainDrainDone hm hq hso =>
      rcases c5 with c5 | c5 <;> rw [hm] at c5 <;> simp at c5

theorem mux_blocked (L E : List ReadEvent)
    (hN : DEFAULT_CHANNEL_CAPACITY < (readLines L).length)
    {s : MuxState} (h : Reach (initState L E) s) :
    s.mainPh ≠ MainPhase.done ∧ s.sout ≠ StdoutPhase.done := by
  have hinv : CountInv L s := by
    induction h with
    | refl => exact CountInv_init L E
    | step _ hstep ih => exact CountInv_step L hN ih hstep
  obtain ⟨-, -, -, c4, c5⟩ := hinv
  refine ⟨?_, c4⟩
  rcases c5 with c5 | c5 <;> rw [c5] <;> simp

theorem readLines_replicate_line (n : Nat) (x : String) :
    readLines (List.replicate n (ReadEvent.line x)) = List.replicate n x := by
  induction n with
  | zero => rfl
  | succ n ih => simp [List.replicate_succ, readLines, ih]

/-- Claim C2 (code bug, at the failing input of the spec scenario): with a
stdout stream of 1000 lines and a stderr stream of 1000 lines, no reachable
state of the task system inside execute_command completes — the main task
never reaches its final state and the stdout reader task never finishes.
The stdout reader must push 1000 lines into the accumulation channel of
capacity DEFAULT_CHANNEL_CAPACITY = 100, but that channel is received from
only after the reader task has been joined, so the reader blocks on the
101st send under every schedule: execute_command never returns, the streams
are never exhausted, and fewer than the N+M tagged lines are ever
printed. -/
theorem C2_thousand_lines_never_completes (s : MuxState)
    (h : Reach (initState (List.replicate 1000 (ReadEvent.line "upgrading"))
        (List.replicate 1000 (ReadEvent.line "warning"))) s) :
    s.mainPh ≠ MainPhase.done ∧ s.sout ≠ StdoutPhase.done := by
  refine mux_blocked _ _ ?_ h
  rw [readLines_replicate_line, List.length_replicate]
  norm_num [DEFAULT_CHANNEL_CAPACITY]

/-- Claim C2 witness: the deadlock theorem applied at the initial state of
the 1000-line scenario. -/
theorem C2_thousand_lines_never_completes_witness :
    Reach (initState (List.replicate 1000 (ReadEvent.line "upgrading"))
        (List.replicate 1000 (ReadEvent.line "warning")))
      (initState (List.replicate 1000 (ReadEvent.line "upgrading"))
        (List.replicate 1000 (ReadEvent.line "warning")))
      ∧ ((initState (List.replicate 1000 (ReadEvent.line "upgrading"))
          (List.replicate 1000 (ReadEvent.line "warning"))).mainPh ≠ MainPhase.done
        ∧ (initState (List.replicate 1000 (ReadEvent.line "upgrading"))
            (List.replicate 1000 (ReadEvent.line "warning"))).sout ≠ StdoutPhase.done) :=
  ⟨Reach.refl, C2_thousand_lines_never_completes _ Reach.refl⟩

end FedoraUpdater
